import Mathlib

/-!
Verification of the Zenoh topic monitor core (src/main.rs, src/decoder.rs):
the topic-state store, the per-topic rate estimator and the snapshot-diff
engine.  Hash maps are embedded as association lists with unique keys,
u64 timestamps/sizes as Nat, and the f64 frequency arithmetic as exact
rational arithmetic (every value the claims mention — 0, positivity, and
1000/100 = 10 — is exactly representable in f64, so the rational model
agrees with the floating-point code on them).
-/

namespace ZenohMonitor

/-! ## Association-list embedding of HashMap -/

/-- Lookup in an association list; embeds HashMap::get. -/
def lookupA {α : Type} (k : String) : List (String × α) → Option α
  | [] => none
  | kv :: rest => if kv.1 = k then some kv.2 else lookupA k rest

/-- Insert-or-replace in an association list; embeds HashMap::insert
(and the net effect of entry().or_insert() followed by in-place mutation). -/
def insertA {α : Type} (k : String) (v : α) : List (String × α) → List (String × α)
  | [] => [(k, v)]
  | kv :: rest => if kv.1 = k then (k, v) :: rest else kv :: insertA k v rest

/-! ## Data model (main.rs lines 22-43) -/

/-- TopicData from main.rs: the latest known state of one topic.
estimated_hz (f64 in the source) is modelled as a rational. -/
structure TopicData where
  key_expr : String
  last_data_size_bytes : Nat
  received_timestamp : Nat
  decoded_content : Option String
  estimated_hz : ℚ
deriving DecidableEq

/-- WINDOW_SIZE constant from main.rs line 42. -/
def WINDOW_SIZE : Nat := 20

/-! ## Rate estimator (main.rs lines 81-106)

An IntervalHistory entry for one key is a pair (last_seen, recent_deltas),
exactly the (u64, Vec of u64) of the source. -/

/-- One rate-estimator update for one key (main.rs lines 86-95), with the
window size w a parameter (the source fixes w = WINDOW_SIZE = 20):
if the new timestamp is strictly later, push the gap and evict index 0 on
overflow; then set last_seen to the new timestamp unconditionally. -/
def rateStep (w : Nat) (e : Nat × List Nat) (timestamp : Nat) : Nat × List Nat :=
  let deltas :=
    if e.1 < timestamp then
      let delta := timestamp - e.1
      let pushed := e.2 ++ [delta]
      if w < pushed.length then pushed.eraseIdx 0 else pushed
    else e.2
  (timestamp, deltas)

/-- Vec::remove(0) from main.rs line 92: panics (none) on an empty vector,
otherwise removes index 0. -/
def vecRemove0 (l : List Nat) : Option (List Nat) :=
  if l.isEmpty then none else some (l.eraseIdx 0)

/-- rateStep with the eviction's index-0 removal modelled as the partial
Vec::remove it is in the source, to show the panic case is unreachable. -/
def rateStepChecked (w : Nat) (e : Nat × List Nat) (timestamp : Nat) :
    Option (Nat × List Nat) :=
  if e.1 < timestamp then
    let delta := timestamp - e.1
    let pushed := e.2 ++ [delta]
    if w < pushed.length then (vecRemove0 pushed).map (fun l => (timestamp, l))
    else some (timestamp, pushed)
  else some (timestamp, e.2)

/-- Arithmetic mean of the window, as computed at main.rs line 98. -/
def listMean (l : List Nat) : ℚ := (l.sum : ℚ) / (l.length : ℚ)

/-- Frequency estimate from the window (main.rs lines 97-106): 0 on an empty
window, else 1000 / mean, with a guard returning 0 when the mean is not
positive. -/
def estimatedHz (deltas : List Nat) : ℚ :=
  if deltas.isEmpty then 0
  else
    let avg := listMean deltas
    if 0 < avg then 1000 / avg else 0

/-! ## Decoder (decoder.rs, and the external msg_utils collaborator) -/

/-- Outcome of the external msg_utils decode-handler lookup and decode for
one sample: a successful rendering, a decode error message, or no handler
registered for the key.  The external collaborator is modelled as an oracle
carried by the sample. -/
inductive DecodeOutcome where
  | ok (rendered : String)
  | err (msg : String)
  | noHandler
deriving DecidableEq

/-- A Zenoh sample as the subscriber loop reads it: key expression, payload
byte length, and the (external) decode outcome for this sample. -/
structure Sample where
  key_expr : String
  payload_len : Nat
  decode_result : DecodeOutcome
deriving DecidableEq

/-- flatbuffer_decoder from decoder.rs lines 13-31: renders the decoded
message, or an error string on decode failure, or a no-handler string when
no handler matches the key.  Always returns a string, never fails. -/
def flatbuffer_decoder (sample : Sample) : String :=
  match sample.decode_result with
  | .ok rendered => rendered
  | .err e => "Error decoding message on " ++ sample.key_expr ++ ": " ++ e
  | .noHandler => "No handler found for message on " ++ sample.key_expr

/-- Models the external html_escape::encode_text collaborator used by
html_escape_string (main.rs line 53): escapes the three text-significant
characters. -/
def htmlEscape (s : String) : String :=
  String.join (s.toList.map (fun c =>
    if c = '&' then "&amp;"
    else if c = '<' then "&lt;"
    else if c = '>' then "&gt;"
    else String.singleton c))

/-! ## Subscriber loop body: store ingest (main.rs lines 76-124) -/

/-- The shared state: the topic cache and the interval history maps. -/
structure MonitorState where
  topic_cache : List (String × TopicData)
  interval_history : List (String × (Nat × List Nat))
deriving DecidableEq

/-- Both maps start empty (main.rs lines 809-810). -/
def initState : MonitorState := ⟨[], []⟩

/-- One iteration of the subscriber loop (main.rs lines 76-124) for one
received sample at one arrival timestamp, with the window size w a
parameter: look up or seed the interval history, run the rate step,
compute the frequency estimate, apply the optional decoder, and insert the
new TopicData record. -/
def subscriberStepW (w : Nat) (decoder : Option (Sample → String))
    (s : MonitorState) (sample : Sample) (timestamp : Nat) : MonitorState :=
  let entry0 := (lookupA sample.key_expr s.interval_history).getD (timestamp, [])
  let entry := rateStep w entry0 timestamp
  let hz := estimatedHz entry.2
  let dc := decoder.map (fun f => htmlEscape (f sample))
  let td : TopicData :=
    { key_expr := sample.key_expr
      last_data_size_bytes := sample.payload_len
      received_timestamp := timestamp
      decoded_content := dc
      estimated_hz := hz }
  { topic_cache := insertA sample.key_expr td s.topic_cache
    interval_history := insertA sample.key_expr entry s.interval_history }

/-- The subscriber loop body at the source's fixed window size. -/
def subscriberStep (decoder : Option (Sample → String)) (s : MonitorState)
    (sample : Sample) (timestamp : Nat) : MonitorState :=
  subscriberStepW WINDOW_SIZE decoder s sample timestamp

/-- Run the subscriber loop from a given state over a list of
(sample, arrival timestamp) events. -/
def runFromW (w : Nat) (decoder : Option (Sample → String)) (s : MonitorState)
    (events : List (Sample × Nat)) : MonitorState :=
  events.foldl (fun st ev => subscriberStepW w decoder st ev.1 ev.2) s

/-- Run the subscriber loop from the initial empty state. -/
def runW (w : Nat) (decoder : Option (Sample → String))
    (events : List (Sample × Nat)) : MonitorState :=
  runFromW w decoder initState events

/-- Iterate the bare rate estimator over a list of timestamps. -/
def rateRun (w : Nat) (e : Nat × List Nat) (ts : List Nat) : Nat × List Nat :=
  ts.foldl (rateStep w) e

/-! ## Snapshot-diff engine (main.rs lines 708-744) -/

/-- The per-record change test of the diff loop (main.rs lines 725-731):
a record counts as changed when its key is absent from the previous
snapshot, or the stored record differs in received_timestamp or in any
field. -/
def topicChanged (last_snapshot : List (String × TopicData))
    (key : String) (value : TopicData) : Bool :=
  match lookupA key last_snapshot with
  | some old =>
      decide (old.received_timestamp ≠ value.received_timestamp) || decide (old ≠ value)
  | none => true

/-- The updated list of the diff (main.rs lines 725-735): every current
record that counts as changed against the previous snapshot. -/
def diffUpdated (last_snapshot current_cache : List (String × TopicData)) :
    List TopicData :=
  (current_cache.filter (fun kv => topicChanged last_snapshot kv.1 kv.2)).map Prod.snd

/-- The keys of the entries contributing to the updated list. -/
def diffUpdatedKeys (last_snapshot current_cache : List (String × TopicData)) :
    List String :=
  (current_cache.filter (fun kv => topicChanged last_snapshot kv.1 kv.2)).map Prod.fst

/-- The removed list of the diff (main.rs lines 737-739): the set difference
of the previous snapshot's keys and the current keys. -/
def diffRemoved (last_snapshot current_cache : List (String × TopicData)) :
    List String :=
  (last_snapshot.map Prod.fst).filter (fun k => decide (k ∉ current_cache.map Prod.fst))

/-- One tick of the per-consumer SSE stream (main.rs lines 708-745): the
delta against the previous snapshot, and the consumer's new snapshot, which
the source makes a copy of the current cache (clear then extend, lines
741-742) while only read-locking the cache. -/
def sseStep (cache last_snapshot : List (String × TopicData)) :
    (List TopicData × List String) × List (String × TopicData) :=
  ((diffUpdated last_snapshot cache, diffRemoved last_snapshot cache), cache)

/-! ## Association-list lemmas -/

theorem lookupA_insertA_self {α : Type} (k : String) (v : α) (m : List (String × α)) :
    lookupA k (insertA k v m) = some v := by
  induction m with
  | nil => simp [insertA, lookupA]
  | cons kv rest ih =>
      by_cases h : kv.1 = k
      · simp [insertA, lookupA, h]
      · simp [insertA, lookupA, h, ih]

theorem lookupA_insertA_ne {α : Type} (k j : String) (v : α) (m : List (String × α))
    (h : j ≠ k) : lookupA j (insertA k v m) = lookupA j m := by
  induction m with
  | nil => simp [insertA, lookupA, Ne.symm h]
  | cons kv rest ih =>
      by_cases hk : kv.1 = k
      · simp [insertA, lookupA, hk, Ne.symm h]
      · simp only [insertA, if_neg hk, lookupA]
        by_cases hj : kv.1 = j
        · simp [hj]
        · simp [hj, ih]

theorem lookupA_some_mem {α : Type} {k : String} {v : α} {m : List (String × α)}
    (h : lookupA k m = some v) : (k, v) ∈ m := by
  induction m with
  | nil => simp [lookupA] at h
  | cons kv rest ih =>
      rcases kv with ⟨a, b⟩
      by_cases hk : a = k
      · simp [lookupA, hk] at h
        subst hk
        subst h
        exact List.mem_cons_self _ _
      · simp [lookupA, hk] at h
        exact List.mem_cons_of_mem _ (ih h)

theorem lookupA_eq_none {α : Type} (k : String) (m : List (String × α)) :
    lookupA k m = none ↔ k ∉ m.map Prod.fst := by
  induction m with
  | nil => simp [lookupA]
  | cons kv rest ih =>
      rcases kv with ⟨a, b⟩
      by_cases hk : a = k
      · subst hk
        simp [lookupA]
      · simp [lookupA, hk, ih, Ne.symm hk]

theorem mem_lookupA {α : Type} {k : String} {v : α} {m : List (String × α)}
    (hn : (m.map Prod.fst).Nodup) (h : (k, v) ∈ m) : lookupA k m = some v := by
  induction m with
  | nil => simp at h
  | cons kv rest ih =>
      rcases kv with ⟨a, b⟩
      rw [List.map_cons, List.nodup_cons] at hn
      rcases List.mem_cons.mp h with h1 | h1
      · simp [Prod.mk.injEq] at h1
        simp [lookupA, h1.1, ← h1.2]
      · have hk : ¬ a = k := by
          intro he
          subst he
          exact hn.1 (List.mem_map.mpr ⟨(a, v), h1, rfl⟩)
        simp [lookupA, hk]
        exact ih hn.2 h1

theorem lookupA_mem_keys {α : Type} {k : String} {v : α} {m : List (String × α)}
    (h : lookupA k m = some v) : k ∈ m.map Prod.fst := by
  have := lookupA_some_mem h
  exact List.mem_map.mpr ⟨(k, v), this, rfl⟩

/-! ## Diff-engine lemmas -/

theorem topicChanged_iff (prev : List (String × TopicData)) (k : String) (v : TopicData) :
    topicChanged prev k v = true ↔ lookupA k prev ≠ some v := by
  unfold topicChanged
  cases h : lookupA k prev with
  | none => simp
  | some old =>
      simp only [Bool.or_eq_true, decide_eq_true_eq, ne_eq, Option.some.injEq]
      constructor
      · rintro (h1 | h1) he
        · exact h1 (congrArg TopicData.received_timestamp he)
        · exact h1 he
      · exact fun h1 => Or.inr h1

/-- C1: diff(previous, current) returns an updated sequence containing exactly
the records of current whose key is absent from previous or whose record is
not field-wise equal to previous's record for that key (full-record equality,
so a change in received_at alone counts), and a removed sequence containing
exactly the keys present in previous but absent from current. -/
theorem diff_updated_removed_spec (prev cur : List (String × TopicData)) :
    (∀ r : TopicData, r ∈ diffUpdated prev cur ↔
      ∃ k, (k, r) ∈ cur ∧
        (lookupA k prev = none ∨ ∃ old, lookupA k prev = some old ∧ old ≠ r))
  ∧ (∀ k : String, k ∈ diffRemoved prev cur ↔
      ((∃ r, (k, r) ∈ prev) ∧ ∀ r, (k, r) ∉ cur)) := by
  constructor
  · intro r
    unfold diffUpdated
    rw [List.mem_map]
    constructor
    · rintro ⟨kv, hkv, hsnd⟩
      rw [List.mem_filter] at hkv
      refine ⟨kv.1, ?_, ?_⟩
      · rw [show ((kv.1 : String), r) = kv from by rw [← hsnd]]
        exact hkv.1
      · have hne := (topicChanged_iff prev kv.1 kv.2).mp hkv.2
        rw [hsnd] at hne
        rcases h2 : lookupA kv.1 prev with _ | old
        · exact Or.inl rfl
        · exact Or.inr ⟨old, rfl, fun he => hne (by rw [h2, he])⟩
    · rintro ⟨k, hmem, hch⟩
      refine ⟨(k, r), ?_, rfl⟩
      rw [List.mem_filter]
      refine ⟨hmem, (topicChanged_iff prev k r).mpr ?_⟩
      rcases hch with h1 | ⟨old, h1, h2⟩
      · rw [h1]
        simp
      · rw [h1]
        simpa using h2
  · intro k
    unfold diffRemoved
    rw [List.mem_filter]
    simp only [decide_eq_true_eq]
    constructor
    · rintro ⟨h1, h2⟩
      rcases List.mem_map.mp h1 with ⟨kv, hkv, hfst⟩
      refine ⟨⟨kv.2, ?_⟩, ?_⟩
      · rw [show ((k : String), kv.2) = kv from by rw [← hfst]]
        exact hkv
      · intro r hr
        exact h2 (List.mem_map.mpr ⟨(k, r), hr, rfl⟩)
    · rintro ⟨⟨r, hr⟩, h2⟩
      refine ⟨List.mem_map.mpr ⟨(k, r), hr, rfl⟩, ?_⟩
      intro hmem
      rcases List.mem_map.mp hmem with ⟨kv, hkv, hfst⟩
      refine h2 kv.2 ?_
      rw [show ((k : String), kv.2) = kv from by rw [← hfst]]
      exact hkv

/-- C6: a key present in both snapshots with field-identical records appears
in neither the updated nor the removed output, and no key ever appears in
both outputs simultaneously. -/
theorem no_false_removal_spec :
    (∀ (prev cur : List (String × TopicData)) (k : String) (r : TopicData),
      (cur.map Prod.fst).Nodup →
      lookupA k prev = some r → lookupA k cur = some r →
      k ∉ diffUpdatedKeys prev cur ∧ k ∉ diffRemoved prev cur)
  ∧ (∀ (prev cur : List (String × TopicData)) (k : String),
      k ∈ diffUpdatedKeys prev cur → k ∉ diffRemoved prev cur) := by
  constructor
  · intro prev cur k r hn hp hc
    constructor
    · intro hmem
      unfold diffUpdatedKeys at hmem
      rcases List.mem_map.mp hmem with ⟨kv, hkv, hfst⟩
      rw [List.mem_filter] at hkv
      have hkv2 : ((k : String), kv.2) ∈ cur := by
        rw [show ((k : String), kv.2) = kv from by rw [← hfst]]
        exact hkv.1
      have hv := mem_lookupA hn hkv2
      have hvr : kv.2 = r := Option.some.inj (hv.symm.trans hc)
      have hch := hkv.2
      rw [hfst, hvr] at hch
      exact (topicChanged_iff prev k r).mp hch hp
    · intro hmem
      unfold diffRemoved at hmem
      rw [List.mem_filter] at hmem
      exact of_decide_eq_true hmem.2 (lookupA_mem_keys hc)
  · intro prev cur k hmem hrem
    unfold diffRemoved at hrem
    rw [List.mem_filter] at hrem
    have h2 := of_decide_eq_true hrem.2
    unfold diffUpdatedKeys at hmem
    rcases List.mem_map.mp hmem with ⟨kv, hkv, hfst⟩
    rw [List.mem_filter] at hkv
    exact h2 (List.mem_map.mpr ⟨kv, hkv.1, hfst⟩)

/-- Record used by the concrete no-false-removal witness. -/
def cRecA : TopicData := ⟨"a", 1, 5, none, 0⟩

/-- Witness for the no-false-removal theorem at a concrete pair of
snapshots sharing the identical record for key a. -/
theorem no_false_removal_witness :
    "a" ∉ diffUpdatedKeys [("a", cRecA)] [("a", cRecA)]
      ∧ "a" ∉ diffRemoved [("a", cRecA)] [("a", cRecA)] :=
  no_false_removal_spec.1 [("a", cRecA)] [("a", cRecA)] "a" cRecA
    (by simp) (by simp [lookupA]) (by simp [lookupA])

theorem lookupA_eq_of_perm {α : Type} {p p2 : List (String × α)}
    (h : List.Perm p p2) (hn : (p.map Prod.fst).Nodup) (k : String) :
    lookupA k p = lookupA k p2 := by
  have hn2 : (p2.map Prod.fst).Nodup := ((h.map Prod.fst).nodup_iff).mp hn
  cases hv : lookupA k p with
  | none =>
      symm
      rw [lookupA_eq_none]
      rw [lookupA_eq_none] at hv
      exact fun hmem => hv (((h.map Prod.fst).mem_iff).mpr hmem)
  | some v =>
      symm
      exact mem_lookupA hn2 (h.mem_iff.mp (lookupA_some_mem hv))

/-- C8: the diff is a pure function of the two input mappings: determinism is
definitional in this embedding, and the substantive content is that the
result does not depend on the association-list representation of either
mapping (same logical content gives the same delta up to the output order,
which the source leaves unspecified), and that one SSE tick returns exactly
the delta of its two inputs, leaves the cache unchanged and replaces the
consumer's previous snapshot with the current cache. -/
theorem diff_pure_spec :
    (∀ prev prev2 cur cur2 : List (String × TopicData),
      List.Perm prev prev2 → (prev.map Prod.fst).Nodup → List.Perm cur cur2 →
      List.Perm (diffUpdated prev cur) (diffUpdated prev2 cur2)
        ∧ List.Perm (diffRemoved prev cur) (diffRemoved prev2 cur2))
  ∧ (∀ cache last_snapshot : List (String × TopicData),
      sseStep cache last_snapshot
        = ((diffUpdated last_snapshot cache, diffRemoved last_snapshot cache), cache)) := by
  constructor
  · intro prev prev2 cur cur2 hprev hn hcur
    have hfil : cur.filter (fun kv => topicChanged prev kv.1 kv.2)
        = cur.filter (fun kv => topicChanged prev2 kv.1 kv.2) := by
      apply List.filter_congr
      intro kv _
      unfold topicChanged
      rw [lookupA_eq_of_perm hprev hn kv.1]
    constructor
    · unfold diffUpdated
      rw [hfil]
      exact (hcur.filter _).map Prod.snd
    · unfold diffRemoved
      have hpred : ∀ k ∈ prev.map Prod.fst,
          decide (k ∉ cur.map Prod.fst) = decide (k ∉ cur2.map Prod.fst) := by
        intro k _
        exact decide_eq_decide.mpr (not_congr ((hcur.map Prod.fst).mem_iff))
      rw [List.filter_congr hpred]
      exact (hprev.map Prod.fst).filter _
  · intro cache last_snapshot
    rfl

/-- Record used by the concrete diff-purity witness. -/
def cRecB : TopicData := ⟨"b", 2, 6, none, 0⟩

/-- Witness for diff purity: the same two mappings in two association-list
orders produce the same delta up to permutation. -/
theorem diff_pure_witness :
    List.Perm (diffUpdated [("a", cRecA), ("b", cRecB)] [("a", cRecA)])
        (diffUpdated [("b", cRecB), ("a", cRecA)] [("a", cRecA)])
      ∧ List.Perm (diffRemoved [("a", cRecA), ("b", cRecB)] [("a", cRecA)])
          (diffRemoved [("b", cRecB), ("a", cRecA)] [("a", cRecA)]) :=
  diff_pure_spec.1 _ _ _ _ (List.Perm.swap _ _ _) (by simp) (List.Perm.refl _)

/-! ## Rate-estimator lemmas -/

theorem rateStep_of_le {w : Nat} {e : Nat × List Nat} {t : Nat} (h : t ≤ e.1) :
    rateStep w e t = (t, e.2) := by
  simp [rateStep, Nat.not_lt.mpr h]

theorem rateStep_fst (w : Nat) (e : Nat × List Nat) (t : Nat) :
    (rateStep w e t).1 = t := rfl

theorem rateStep_snd_of_lt {w : Nat} {e : Nat × List Nat} {t : Nat} (h : e.1 < t) :
    (rateStep w e t).2
      = if w < (e.2 ++ [t - e.1]).length then (e.2 ++ [t - e.1]).eraseIdx 0
        else e.2 ++ [t - e.1] := by
  simp [rateStep, h]

theorem length_eraseIdx_zero (l : List Nat) : (l.eraseIdx 0).length = l.length - 1 := by
  cases l <;> simp [List.eraseIdx]

theorem mem_eraseIdx_zero {d : Nat} {l : List Nat} (h : d ∈ l.eraseIdx 0) : d ∈ l := by
  cases l with
  | nil => simp [List.eraseIdx] at h
  | cons x xs => exact List.mem_cons_of_mem x (by simpa [List.eraseIdx] using h)

/-- The interval-history component of one subscriber step, unfolded. -/
theorem subscriberStepW_hist (w : Nat) (dec : Option (Sample → String))
    (s : MonitorState) (sample : Sample) (t : Nat) :
    (subscriberStepW w dec s sample t).interval_history
      = insertA sample.key_expr
          (rateStep w ((lookupA sample.key_expr s.interval_history).getD (t, [])) t)
          s.interval_history := rfl

/-- An invariant of interval-history entries that holds for fresh seeds and is
preserved by the rate step holds for every entry of every reachable state. -/
theorem runFromW_hist_inv (w : Nat) (dec : Option (Sample → String))
    (P : Nat × List Nat → Prop)
    (hseed : ∀ t, P (t, []))
    (hstep : ∀ e t, P e → P (rateStep w e t)) :
    ∀ (events : List (Sample × Nat)) (s : MonitorState),
      (∀ k e, lookupA k s.interval_history = some e → P e) →
      ∀ k e, lookupA k (runFromW w dec s events).interval_history = some e → P e := by
  intro events
  induction events with
  | nil => exact fun s hs k e he => hs k e he
  | cons ev evs ih =>
      intro s hs k e he
      rw [show runFromW w dec s (ev :: evs)
            = runFromW w dec (subscriberStepW w dec s ev.1 ev.2) evs from rfl] at he
      refine ih _ ?_ k e he
      intro k2 e2 he2
      rw [subscriberStepW_hist] at he2
      by_cases hk : k2 = ev.1.key_expr
      · subst hk
        rw [lookupA_insertA_self] at he2
        rw [← Option.some.inj he2]
        cases h0 : lookupA ev.1.key_expr s.interval_history with
        | none => exact hstep _ _ (hseed ev.2)
        | some e0 => exact hstep _ _ (hs _ _ h0)
      · rw [lookupA_insertA_ne _ _ _ _ hk] at he2
        exact hs _ _ he2

/-- Running the subscriber loop over events that all carry the same sample
updates that key's interval history by the bare rate-estimator fold. -/
theorem runFromW_single_key (w : Nat) (dec : Option (Sample → String)) (sample : Sample) :
    ∀ (ts : List Nat) (s : MonitorState) (e : Nat × List Nat),
      lookupA sample.key_expr s.interval_history = some e →
      lookupA sample.key_expr
          (runFromW w dec s (ts.map (fun t => (sample, t)))).interval_history
        = some (rateRun w e ts) := by
  intro ts
  induction ts with
  | nil =>
      intro s e he
      simpa [runFromW, rateRun] using he
  | cons t ts ih =>
      intro s e he
      rw [List.map_cons]
      rw [show runFromW w dec s ((sample, t) :: ts.map (fun u => (sample, u)))
            = runFromW w dec (subscriberStepW w dec s sample t)
                (ts.map (fun u => (sample, u))) from rfl]
      rw [show rateRun w e (t :: ts) = rateRun w (rateStep w e t) ts from rfl]
      apply ih
      rw [subscriberStepW_hist, he]
      simp [lookupA_insertA_self]

/-- From the empty store, a single-key run seeds the history with the first
timestamp and an empty window, then folds the rate step over the rest. -/
theorem runW_single_key (w : Nat) (dec : Option (Sample → String)) (sample : Sample)
    (t0 : Nat) (ts : List Nat) :
    lookupA sample.key_expr
        (runW w dec ((t0 :: ts).map (fun t => (sample, t)))).interval_history
      = some (rateRun w (t0, []) ts) := by
  rw [List.map_cons]
  rw [show runW w dec ((sample, t0) :: ts.map (fun u => (sample, u)))
        = runFromW w dec (subscriberStepW w dec initState sample t0)
            (ts.map (fun u => (sample, u))) from rfl]
  apply runFromW_single_key
  rw [subscriberStepW_hist]
  have hstep0 : rateStep w ((lookupA sample.key_expr initState.interval_history).getD (t0, [])) t0
      = (t0, []) := by
    simp [initState, lookupA, rateStep]
  rw [hstep0, lookupA_insertA_self]

/-- Window length after folding the rate step over strictly increasing
timestamps: it grows by one per step until it saturates at w. -/
theorem rateRun_length (w : Nat) :
    ∀ (ts : List Nat) (e : Nat × List Nat),
      List.Chain' (· < ·) (e.1 :: ts) → e.2.length ≤ w →
      (rateRun w e ts).2.length = min (e.2.length + ts.length) w := by
  intro ts
  induction ts with
  | nil =>
      intro e _ hlen
      simp [rateRun]
      omega
  | cons t ts ih =>
      intro e hchain hlen
      rw [show rateRun w e (t :: ts) = rateRun w (rateStep w e t) ts from rfl]
      rw [List.chain'_cons] at hchain
      obtain ⟨ht, hrest⟩ := hchain
      have hsnd := rateStep_snd_of_lt (w := w) ht
      have hlen2 : (rateStep w e t).2.length = min (e.2.length + 1) w := by
        rw [hsnd]
        by_cases hov : w < (e.2 ++ [t - e.1]).length
        · rw [if_pos hov, length_eraseIdx_zero]
          rw [List.length_append] at hov ⊢
          simp at hov ⊢
          omega
        · rw [if_neg hov]
          rw [List.length_append] at hov ⊢
          simp at hov ⊢
          omega
      have hchain2 : List.Chain' (· < ·) ((rateStep w e t).1 :: ts) := by
        rw [rateStep_fst]
        exact hrest
      have := ih (rateStep w e t) hchain2 (by rw [hlen2]; omega)
      rw [this, hlen2]
      simp [List.length_cons]
      omega

/-- Sample used by the concrete test scenarios of the spec (key t1,
payload 5 bytes, no decode handler registered). -/
def sampleT1 : Sample := ⟨"t1", 5, .noHandler⟩

theorem estimatedHz_nil : estimatedHz [] = 0 := by
  simp [estimatedHz]

/-- On a window of strictly positive gaps the mean is positive, the
zero-mean guard is not taken, and the estimate is the positive 1000/mean. -/
theorem estimatedHz_of_pos {l : List Nat} (hne : l ≠ []) (hp : ∀ d ∈ l, 0 < d) :
    estimatedHz l = 1000 / listMean l ∧ 0 < estimatedHz l := by
  have hsum : 0 < l.sum := List.sum_pos l hp hne
  have hlen : 0 < l.length := List.length_pos.mpr hne
  have hmean : 0 < listMean l := by
    unfold listMean
    apply div_pos
    · exact_mod_cast hsum
    · exact_mod_cast hlen
  have h1 : estimatedHz l = 1000 / listMean l := by
    unfold estimatedHz
    rw [if_neg (by simp [hne]), if_pos hmean]
  refine ⟨h1, ?_⟩
  rw [h1]
  exact div_pos (by norm_num) hmean

theorem rateStep_zero_snd {e : Nat × List Nat} (h : e.2 = []) (t : Nat) :
    (rateStep 0 e t).2 = [] := by
  by_cases hlt : e.1 < t
  · rw [rateStep_snd_of_lt hlt, h]
    simp [List.eraseIdx]
  · rw [rateStep_of_le (Nat.not_lt.mp hlt)]
    exact h

/-- With window size 0, every reachable interval-history window is empty and
every cached record has a zero frequency estimate. -/
theorem runFromW_zero_inv (dec : Option (Sample → String)) :
    ∀ (events : List (Sample × Nat)) (s : MonitorState),
      (∀ k e, lookupA k s.interval_history = some e → e.2 = []) →
      (∀ k td, lookupA k s.topic_cache = some td → td.estimated_hz = 0) →
      (∀ k e, lookupA k (runFromW 0 dec s events).interval_history = some e → e.2 = [])
      ∧ (∀ k td, lookupA k (runFromW 0 dec s events).topic_cache = some td →
          td.estimated_hz = 0) := by
  intro events
  induction events with
  | nil => exact fun s h1 h2 => ⟨h1, h2⟩
  | cons ev evs ih =>
      intro s h1 h2
      rw [show runFromW 0 dec s (ev :: evs)
            = runFromW 0 dec (subscriberStepW 0 dec s ev.1 ev.2) evs from rfl]
      have hent : (rateStep 0
          ((lookupA ev.1.key_expr s.interval_history).getD (ev.2, [])) ev.2).2 = [] := by
        apply rateStep_zero_snd
        cases h0 : lookupA ev.1.key_expr s.interval_history with
        | none => rfl
        | some e0 => exact h1 _ _ h0
      apply ih
      · intro k e he
        rw [subscriberStepW_hist] at he
        by_cases hk : k = ev.1.key_expr
        · subst hk
          rw [lookupA_insertA_self] at he
          rw [← Option.some.inj he]
          exact hent
        · rw [lookupA_insertA_ne _ _ _ _ hk] at he
          exact h1 _ _ he
      · intro k td he
        rw [show (subscriberStepW 0 dec s ev.1 ev.2).topic_cache
              = insertA ev.1.key_expr
                  { key_expr := ev.1.key_expr
                    last_data_size_bytes := ev.1.payload_len
                    received_timestamp := ev.2
                    decoded_content := dec.map (fun f => htmlEscape (f ev.1))
                    estimated_hz := estimatedHz (rateStep 0
                      ((lookupA ev.1.key_expr s.interval_history).getD (ev.2, [])) ev.2).2 }
                  s.topic_cache from rfl] at he
        by_cases hk : k = ev.1.key_expr
        · subst hk
          rw [lookupA_insertA_self] at he
          rw [← Option.some.inj he]
          show estimatedHz _ = 0
          rw [hent]
          exact estimatedHz_nil
        · rw [lookupA_insertA_ne _ _ _ _ hk] at he
          exact h2 _ _ he

/-- C4: the window never exceeds length W, and after N greater than W
observations of one key at strictly increasing timestamps it has length
exactly W, the oldest gap being evicted first (the eviction drops the head
of the window and appends the new gap at the tail). -/
theorem window_bound_spec :
    WINDOW_SIZE = 20
  ∧ (∀ (w : Nat) (dec : Option (Sample → String)) (events : List (Sample × Nat)) (k : String)
        (e : Nat × List Nat),
      lookupA k (runW w dec events).interval_history = some e → e.2.length ≤ w)
  ∧ (∀ (w : Nat) (dec : Option (Sample → String)) (sample : Sample) (t0 : Nat) (ts : List Nat),
      List.Chain' (· < ·) (t0 :: ts) → w < (t0 :: ts).length →
      ∃ e, lookupA sample.key_expr
          (runW w dec ((t0 :: ts).map (fun t => (sample, t)))).interval_history = some e
        ∧ e.2.length = w)
  ∧ (∀ (w : Nat) (e : Nat × List Nat) (t : Nat), 0 < w → e.2.length = w → e.1 < t →
      (rateStep w e t).2 = e.2.drop 1 ++ [t - e.1]) := by
  refine ⟨rfl, ?_, ?_, ?_⟩
  · intro w dec events k e he
    refine runFromW_hist_inv w dec (fun e => e.2.length ≤ w) (fun t => Nat.zero_le w)
      ?_ events initState ?_ k e he
    · intro e2 t hP
      by_cases hlt : e2.1 < t
      · rw [rateStep_snd_of_lt hlt]
        by_cases hov : w < (e2.2 ++ [t - e2.1]).length
        · rw [if_pos hov, length_eraseIdx_zero, List.length_append]
          simp
          omega
        · rw [if_neg hov]
          omega
      · rw [rateStep_of_le (Nat.not_lt.mp hlt)]
        exact hP
    · intro k2 e2 h
      simp [initState, lookupA] at h
  · intro w dec sample t0 ts hchain hN
    refine ⟨rateRun w (t0, []) ts, runW_single_key w dec sample t0 ts, ?_⟩
    have hlen := rateRun_length w ts (t0, []) hchain (Nat.zero_le w)
    rw [hlen]
    rw [List.length_cons] at hN
    simp
    omega
  · intro w e t hw hlen hlt
    rw [rateStep_snd_of_lt hlt]
    have hov : w < (e.2 ++ [t - e.1]).length := by
      rw [List.length_append]
      simp
      omega
    rw [if_pos hov]
    cases h2 : e.2 with
    | nil =>
        rw [h2] at hlen
        simp at hlen
        omega
    | cons x xs => simp [List.eraseIdx]

/-- Witness for the window bound at window size 2 and four strictly
increasing ingests of key t1. -/
theorem window_bound_witness :
    ∃ e, lookupA sampleT1.key_expr
        (runW 2 none (([1000, 1100, 1200, 1300] : List Nat).map
          (fun t => (sampleT1, t)))).interval_history = some e
      ∧ e.2.length = 2 :=
  window_bound_spec.2.2.1 2 none sampleT1 1000 [1100, 1200, 1300]
    (by simp [List.chain'_cons]) (by decide)

/-- C9: with window size 0 the estimator degenerates to no rate estimation —
every reachable window is empty and every cached record reports 0 Hz — and
no ingest panics: the Vec::remove(0) of the eviction, modelled as a partial
operation, always succeeds, for any window size. -/
theorem window_zero_spec :
    (∀ (dec : Option (Sample → String)) (events : List (Sample × Nat)) (k : String)
        (e : Nat × List Nat),
      lookupA k (runW 0 dec events).interval_history = some e → e.2 = [])
  ∧ (∀ (dec : Option (Sample → String)) (events : List (Sample × Nat)) (k : String)
        (td : TopicData),
      lookupA k (runW 0 dec events).topic_cache = some td → td.estimated_hz = 0)
  ∧ (∀ (w : Nat) (e : Nat × List Nat) (t : Nat),
      rateStepChecked w e t = some (rateStep w e t)) := by
  refine ⟨?_, ?_, ?_⟩
  · intro dec events k e he
    refine (runFromW_zero_inv dec events initState ?_ ?_).1 k e he
    · intro k2 e2 h
      simp [initState, lookupA] at h
    · intro k2 td h
      simp [initState, lookupA] at h
  · intro dec events k td he
    refine (runFromW_zero_inv dec events initState ?_ ?_).2 k td he
    · intro k2 e2 h
      simp [initState, lookupA] at h
    · intro k2 td2 h
      simp [initState, lookupA] at h
  · intro w e t
    by_cases hlt : e.1 < t
    · by_cases hov : w < e.2.length + 1
      · simp [rateStepChecked, rateStep, vecRemove0, hlt, hov]
      · simp [rateStepChecked, rateStep, vecRemove0, hlt, hov]
    · simp [rateStepChecked, rateStep, hlt]

/-- Witness for the zero-window claim: one ingest of t1 at window size 0
yields a cached record whose frequency estimate is 0. -/
theorem window_zero_witness :
    TopicData.estimated_hz ⟨"t1", 5, 1000, none, 0⟩ = 0 :=
  window_zero_spec.2.1 none [(sampleT1, 1000)] "t1" ⟨"t1", 5, 1000, none, 0⟩
    (by simp [runW, runFromW, subscriberStepW, initState, lookupA, insertA, rateStep,
          estimatedHz, sampleT1, List.eraseIdx])

/-- C10: every gap stored in a reachable window is strictly positive (a gap
is appended only when the new timestamp strictly exceeds last_seen), so on a
non-empty window the mean is positive, the zero-mean guard branch is never
taken, and the frequency estimate is strictly positive. -/
theorem positive_deltas_spec :
    ∀ (w : Nat) (dec : Option (Sample → String)) (events : List (Sample × Nat)) (k : String)
      (e : Nat × List Nat),
      lookupA k (runW w dec events).interval_history = some e →
      (∀ d ∈ e.2, 0 < d)
      ∧ (e.2 ≠ [] → estimatedHz e.2 = 1000 / listMean e.2 ∧ 0 < estimatedHz e.2) := by
  intro w dec events k e he
  have hpos : ∀ d ∈ e.2, 0 < d := by
    refine runFromW_hist_inv w dec (fun e => ∀ d ∈ e.2, 0 < d) ?_ ?_ events initState ?_ k e he
    · intro t d hd
      simp at hd
    · intro e2 t hP d hd
      by_cases hlt : e2.1 < t
      · rw [rateStep_snd_of_lt hlt] at hd
        by_cases hov : w < (e2.2 ++ [t - e2.1]).length
        · rw [if_pos hov] at hd
          rcases List.mem_append.mp (mem_eraseIdx_zero hd) with h1 | h1
          · exact hP d h1
          · simp at h1
            subst h1
            exact Nat.sub_pos_of_lt hlt
        · rw [if_neg hov] at hd
          rcases List.mem_append.mp hd with h1 | h1
          · exact hP d h1
          · simp at h1
            subst h1
            exact Nat.sub_pos_of_lt hlt
      · rw [rateStep_of_le (Nat.not_lt.mp hlt)] at hd
        exact hP d hd
    · intro k2 e2 h
      simp [initState, lookupA] at h
  exact ⟨hpos, fun hne => estimatedHz_of_pos hne hpos⟩

/-- Witness for the positive-gaps claim after ingesting t1 at 1000 and 1100:
the window is the single positive gap 100 and the estimate is positive. -/
theorem positive_deltas_witness :
    (∀ d ∈ ((1100 : Nat), ([100] : List Nat)).2, 0 < d)
      ∧ (((1100 : Nat), ([100] : List Nat)).2 ≠ [] →
          estimatedHz ((1100 : Nat), ([100] : List Nat)).2
              = 1000 / listMean ((1100 : Nat), ([100] : List Nat)).2
            ∧ 0 < estimatedHz ((1100 : Nat), ([100] : List Nat)).2) :=
  positive_deltas_spec WINDOW_SIZE none [(sampleT1, 1000), (sampleT1, 1100)] "t1"
    (1100, [100])
    (by simp [runW, runFromW, subscriberStepW, initState, lookupA, insertA, rateStep,
          WINDOW_SIZE, sampleT1])

/-! ## Store-ingest lemmas and scenarios -/

/-- The topic-cache component of one subscriber step, unfolded. -/
theorem subscriberStepW_cache (w : Nat) (dec : Option (Sample → String))
    (s : MonitorState) (sample : Sample) (t : Nat) :
    (subscriberStepW w dec s sample t).topic_cache
      = insertA sample.key_expr
          { key_expr := sample.key_expr
            last_data_size_bytes := sample.payload_len
            received_timestamp := t
            decoded_content := dec.map (fun f => htmlEscape (f sample))
            estimated_hz := estimatedHz (rateStep w
              ((lookupA sample.key_expr s.interval_history).getD (t, [])) t).2 }
          s.topic_cache := rfl

/-- State after ingesting t1 at timestamp 1000 from the empty store. -/
def oooState1 : MonitorState := subscriberStep none initState sampleT1 1000

/-- State after then ingesting t1 at the earlier timestamp 900. -/
def oooState2 : MonitorState := subscriberStep none oooState1 sampleT1 900

/-- C2 counterexample: ingesting t1 at 1000 and then at 900 is accepted and
rewrites the stored record's received_timestamp from 1000 down to 900, so
received_at is not monotonically non-decreasing when an accepted
out-of-order observation carries an earlier timestamp. -/
theorem received_at_rewind_cex :
    (lookupA "t1" oooState1.topic_cache).map TopicData.received_timestamp = some 1000
  ∧ (lookupA "t1" oooState2.topic_cache).map TopicData.received_timestamp = some 900
  ∧ (900 : Nat) < 1000 := by
  refine ⟨?_, ?_, by norm_num⟩
  · simp [oooState1, subscriberStep, subscriberStepW, initState, lookupA, insertA, sampleT1]
  · simp [oooState1, oooState2, subscriberStep, subscriberStepW, initState, lookupA,
      insertA, sampleT1]

/-- C2 amended: the stored record's received_timestamp always equals the
timestamp of the most recent ingest of its key, so it is monotonically
non-decreasing across successive ingests of a key whenever the arrival
timestamps of those ingests are non-decreasing (an accepted earlier-stamped
observation instead rewinds it to that earlier timestamp). -/
theorem received_at_monotone_spec :
    ∀ (w : Nat) (dec : Option (Sample → String)) (s : MonitorState) (sample : Sample)
      (t : Nat) (r : TopicData),
      lookupA sample.key_expr s.topic_cache = some r →
      r.received_timestamp ≤ t →
      ∃ r2, lookupA sample.key_expr (subscriberStepW w dec s sample t).topic_cache = some r2
        ∧ r.received_timestamp ≤ r2.received_timestamp ∧ r2.received_timestamp = t := by
  intro w dec s sample t r hr ht
  rw [subscriberStepW_cache]
  exact ⟨_, lookupA_insertA_self _ _ _, ht, rfl⟩

/-- Witness for the amended monotonicity: re-ingesting t1 at the later
timestamp 1100 keeps received_timestamp non-decreasing. -/
theorem received_at_monotone_witness :
    ∃ r2, lookupA sampleT1.key_expr
        (subscriberStepW WINDOW_SIZE none oooState1 sampleT1 1100).topic_cache = some r2
      ∧ (1000 : Nat) ≤ r2.received_timestamp ∧ r2.received_timestamp = 1100 :=
  received_at_monotone_spec WINDOW_SIZE none oooState1 sampleT1 1100
    ⟨"t1", 5, 1000, none, 0⟩
    (by simp [oooState1, subscriberStep, subscriberStepW, initState, lookupA, insertA,
          rateStep, estimatedHz, sampleT1])
    (by norm_num)

/-- C5: an observation with timestamp at or before last_seen leaves the
window unmodified while still setting last_seen to the new timestamp; the
observation is still accepted into the cache with the new timestamp; and in
the 1000-then-900 scenario the window stays empty, last_seen becomes 900 and
the estimate stays 0. -/
theorem out_of_order_spec :
    (∀ (w : Nat) (e : Nat × List Nat) (t : Nat), t ≤ e.1 → rateStep w e t = (t, e.2))
  ∧ (∀ (w : Nat) (dec : Option (Sample → String)) (s : MonitorState) (sample : Sample)
        (t : Nat),
      ∃ td, lookupA sample.key_expr (subscriberStepW w dec s sample t).topic_cache = some td
        ∧ td.received_timestamp = t)
  ∧ lookupA "t1" oooState2.interval_history = some (900, [])
  ∧ (lookupA "t1" oooState2.topic_cache).map TopicData.estimated_hz = some 0
  ∧ (lookupA "t1" oooState2.topic_cache).map TopicData.received_timestamp = some 900 := by
  refine ⟨?_, ?_, ?_, ?_, ?_⟩
  · exact fun w e t h => rateStep_of_le h
  · intro w dec s sample t
    rw [subscriberStepW_cache]
    exact ⟨_, lookupA_insertA_self _ _ _, rfl⟩
  · simp [oooState1, oooState2, subscriberStep, subscriberStepW, initState, lookupA,
      insertA, rateStep, sampleT1]
  · simp [oooState1, oooState2, subscriberStep, subscriberStepW, initState, lookupA,
      insertA, rateStep, estimatedHz, sampleT1]
  · simp [oooState1, oooState2, subscriberStep, subscriberStepW, initState, lookupA,
      insertA, sampleT1]

/-- Witness for the out-of-order rule at a concrete history entry. -/
theorem out_of_order_witness :
    rateStep WINDOW_SIZE (1000, []) 900 = (900, []) :=
  out_of_order_spec.1 WINDOW_SIZE (1000, []) 900 (by norm_num)

/-- Events of the rate-correctness scenario: t1 at 1000, 1100, 1200, 1300. -/
def c3events : List (Sample × Nat) :=
  [(sampleT1, 1000), (sampleT1, 1100), (sampleT1, 1200), (sampleT1, 1300)]

/-- State after the rate-correctness scenario at the source's window size. -/
def c3state : MonitorState := runW WINDOW_SIZE none c3events

/-- C3: after ingesting t1 at 1000, 1100, 1200, 1300 the window is
[100, 100, 100] with mean 100 and the stored estimate is 10 Hz; in general
the estimate is 0 on an empty window, 0 on a zero mean, and 1000/mean
otherwise. -/
theorem rate_estimate_spec :
    lookupA "t1" c3state.interval_history = some (1300, [100, 100, 100])
  ∧ listMean [100, 100, 100] = 100
  ∧ (lookupA "t1" c3state.topic_cache).map TopicData.estimated_hz = some 10
  ∧ (∀ ds : List Nat,
      (ds = [] → estimatedHz ds = 0)
      ∧ (ds ≠ [] → listMean ds = 0 → estimatedHz ds = 0)
      ∧ (ds ≠ [] → listMean ds ≠ 0 → estimatedHz ds = 1000 / listMean ds)) := by
  refine ⟨?_, ?_, ?_, ?_⟩
  · simp [c3state, c3events, runW, runFromW, subscriberStepW, sampleT1, initState,
      lookupA, insertA, rateStep, WINDOW_SIZE]
  · norm_num [listMean]
  · simp [c3state, c3events, runW, runFromW, subscriberStepW, sampleT1, initState,
      lookupA, insertA, rateStep, WINDOW_SIZE, estimatedHz, listMean]
    norm_num
  · intro ds
    refine ⟨?_, ?_, ?_⟩
    · intro h
      subst h
      exact estimatedHz_nil
    · intro hne hmean
      unfold estimatedHz
      rw [if_neg (by simp [hne]), hmean]
      simp
    · intro hne hmean
      have hnonneg : 0 ≤ listMean ds := by
        unfold listMean
        positivity
      have hpos : 0 < listMean ds := lt_of_le_of_ne hnonneg (Ne.symm hmean)
      unfold estimatedHz
      rw [if_neg (by simp [hne]), if_pos hpos]

/-- Witness for the general estimate characterization on the non-empty
window [100] with non-zero mean. -/
theorem rate_estimate_witness : estimatedHz [100] = 1000 / listMean [100] :=
  (rate_estimate_spec.2.2.2 [100]).2.2 (by simp) (by norm_num [listMean])

/-! ## Decoder claims -/

/-- Sample whose key has no registered decode handler. -/
def c7sample : Sample := ⟨"t1", 3, .noHandler⟩

/-- State after ingesting that sample with the decoder configured. -/
def c7state : MonitorState :=
  subscriberStep (some flatbuffer_decoder) initState c7sample 1000

/-- C7 counterexample: with a decoder configured and no handler matching the
key, decoded_content is not absent — it is present and holds the decoder's
placeholder string. -/
theorem decoded_present_on_no_handler_cex :
    (lookupA "t1" c7state.topic_cache).map TopicData.decoded_content
      = some (some "No handler found for message on t1")
  ∧ (∀ s : String, some s ≠ (none : Option String)) := by
  refine ⟨by decide, fun s => Option.some_ne_none s⟩

/-- C7 amended: decoded_content is present if and only if a decoder is
configured, and is then exactly the escaped decoder output; on decode
failure or a missing handler the decoder returns its error or placeholder
string rather than failing; and the decoder choice never affects the rest
of the ingest (same history, same timestamp, size and estimate). -/
theorem decoded_content_spec :
    (∀ (w : Nat) (dec : Option (Sample → String)) (s : MonitorState) (sample : Sample)
        (t : Nat),
      ∃ td, lookupA sample.key_expr (subscriberStepW w dec s sample t).topic_cache = some td
        ∧ td.decoded_content.isSome = dec.isSome
        ∧ td.decoded_content = dec.map (fun f => htmlEscape (f sample)))
  ∧ (∀ (sample : Sample) (e : String), sample.decode_result = DecodeOutcome.err e →
      flatbuffer_decoder sample
        = "Error decoding message on " ++ sample.key_expr ++ ": " ++ e)
  ∧ (∀ sample : Sample, sample.decode_result = DecodeOutcome.noHandler →
      flatbuffer_decoder sample = "No handler found for message on " ++ sample.key_expr)
  ∧ (∀ (w : Nat) (dec dec2 : Option (Sample → String)) (s : MonitorState) (sample : Sample)
        (t : Nat),
      (subscriberStepW w dec s sample t).interval_history
        = (subscriberStepW w dec2 s sample t).interval_history
      ∧ ∃ td td2,
          lookupA sample.key_expr (subscriberStepW w dec s sample t).topic_cache = some td
        ∧ lookupA sample.key_expr (subscriberStepW w dec2 s sample t).topic_cache = some td2
        ∧ td.received_timestamp = td2.received_timestamp
        ∧ td.last_data_size_bytes = td2.last_data_size_bytes
        ∧ td.estimated_hz = td2.estimated_hz) := by
  refine ⟨?_, ?_, ?_, ?_⟩
  · intro w dec s sample t
    rw [subscriberStepW_cache]
    refine ⟨_, lookupA_insertA_self _ _ _, ?_, rfl⟩
    cases dec <;> rfl
  · intro sample e h
    simp [flatbuffer_decoder, h]
  · intro sample h
    simp [flatbuffer_decoder, h]
  · intro w dec dec2 s sample t
    refine ⟨rfl, ?_⟩
    rw [subscriberStepW_cache, subscriberStepW_cache]
    exact ⟨_, _, lookupA_insertA_self _ _ _, lookupA_insertA_self _ _ _, rfl, rfl, rfl⟩

/-- Witness for the no-handler placeholder at the concrete sample. -/
theorem decoded_content_witness :
    flatbuffer_decoder c7sample = "No handler found for message on " ++ c7sample.key_expr :=
  decoded_content_spec.2.2.1 c7sample rfl

end ZenohMonitor
